import Mathlib

/-!
Shallow embedding, in Lean 4, of the Z-machine interpreter found in
src/src/components of the repository (memory.rs, state.rs, instruction.rs,
object_table.rs, dictionary.rs, text.rs), together with theorems settling the
claims of the specification against it.

Conventions of the embedding:
* Machine integers (u8, u16, u64, usize) are modelled as Nat, with explicit
  masking (x &&& 0xFF, x % 65536, ...) exactly where the Rust code truncates.
  Signed 16-bit values are modelled as Int through the conversion toI16.
* Fallible Rust code (functions returning Result) is modelled with Except.
  Rust panics that are reachable in the modelled functions (out-of-bounds
  Vec indexing, checked arithmetic overflow of division/remainder, usize
  underflow) are modelled by the dedicated error constructor rustAbort.
  Unchecked release-mode integer overflow of +, -, * wraps (two's
  complement), which is what the embedding computes.
* Functions that mutate self in Rust take and return the state explicitly.
-/

/-- Errors of the interpreter, from enum InfocomError in src/components/mod.rs.
Message strings of the Rust format! calls are abbreviated to their constant
parts.  The extra constructor rustAbort models Rust panics (the Rust type has
no such variant because a panic aborts the interpreter). -/
inductive InfocomError where
  | memory (msg : String)
  | readViolation (addr limit : Nat)
  | writeViolation (addr limit : Nat)
  | text (msg : String)
  | version (v : Nat)
  | rustAbort (msg : String)
deriving DecidableEq, Repr

instance {ε α : Type} [DecidableEq ε] [DecidableEq α] : DecidableEq (Except ε α) := fun a b =>
  match a, b with
  | .ok x, .ok y => if h : x = y then isTrue (by rw [h]) else isFalse (by simp [h])
  | .error x, .error y => if h : x = y then isTrue (by rw [h]) else isFalse (by simp [h])
  | .ok _, .error _ => isFalse (by simp)
  | .error _, .ok _ => isFalse (by simp)

/-- Memory map of the story image, from struct MemoryMap in
src/components/memory.rs.  The version field holds the u8 inside Version::V;
memory_map is the byte vector of the image. -/
structure MemoryMap where
  version : Nat
  memory_map : List Nat
  dynamic_restore : List Nat
  static_mark : Nat
deriving DecidableEq, Repr

/-- Construction of a MemoryMap from raw image bytes, from the TryFrom impl in
src/components/memory.rs.  The Rust code indexes data at 0xe and 0xf and
slices data at 0..mark unconditionally inside the non-empty branch; the two
rustAbort branches model the panics those operations raise when the image is
too short. -/
def MemoryMap.try_from (data : List Nat) : Except InfocomError MemoryMap :=
  if data.length > 0 then
    if 0xf < data.length then
      let high := data.getD 0xe 0
      let low := data.getD 0xf 0
      let mark := ((high <<< 8) &&& 0xFF00) ||| (low &&& 0xFF)
      if mark ≤ data.length then
        .ok { version := data.getD 0 0,
              memory_map := data,
              dynamic_restore := data.take mark,
              static_mark := mark }
      else .error (.rustAbort "slice index out of range")
    else .error (.rustAbort "index out of bounds")
  else .error (.memory "Invalid memory map data")

/-- Image length, from MemoryMap::len. -/
def MemoryMap.len (mm : MemoryMap) : Nat := mm.memory_map.length

/-- Read a byte, from MemoryMap::get_byte: succeeds only in the bottom 64KiB
and inside the image. -/
def MemoryMap.get_byte (mm : MemoryMap) (address : Nat) : Except InfocomError Nat :=
  if address ≤ 0xFFFF ∧ address < mm.len then
    .ok (mm.memory_map.getD address 0)
  else
    .error (.readViolation address mm.len)

/-- Read a big-endian word, from MemoryMap::get_word. -/
def MemoryMap.get_word (mm : MemoryMap) (address : Nat) : Except InfocomError Nat := do
  let high ← mm.get_byte address
  let low ← mm.get_byte (address + 1)
  .ok (((high <<< 8) &&& 0xFF00) ||| (low &&& 0xFF))

/-- Write a byte, from MemoryMap::set_byte: guarded by the static mark.  The
inner bound check models the panic of the Vec indexing
self.memory_map[address] when the static mark exceeds the image length (not
reachable through try_from, which enforces mark ≤ length). -/
def MemoryMap.set_byte (mm : MemoryMap) (address value : Nat) : Except InfocomError MemoryMap :=
  if address < mm.static_mark then
    if address < mm.memory_map.length then
      .ok { mm with memory_map := mm.memory_map.set address value }
    else .error (.rustAbort "index out of bounds")
  else .error (.writeViolation address (mm.static_mark - 1))

/-- Write a big-endian word, from MemoryMap::set_word.  The Rust function
mutates self through two set_byte calls joined by the question-mark operator,
so when only the second write is rejected the first one has already happened;
the returned pair carries the memory as left by the call together with the
Result, which makes that partial mutation observable. -/
def MemoryMap.set_word (mm : MemoryMap) (address value : Nat) :
    MemoryMap × Except InfocomError Unit :=
  match mm.set_byte address ((value >>> 8) &&& 0xFF) with
  | .error e => (mm, .error e)
  | .ok mm1 =>
    match mm1.set_byte (address + 1) (value &&& 0xFF) with
    | .error e => (mm1, .error e)
    | .ok mm2 => (mm2, .ok ())

/-- Success-path view of set_word, used by callers that propagate the error
with the question-mark operator and never look at the memory again after a
failure. -/
def MemoryMap.set_wordE (mm : MemoryMap) (address value : Nat) : Except InfocomError MemoryMap :=
  match mm.set_word address value with
  | (mm1, .ok _) => .ok mm1
  | (_, .error e) => .error e

/-- Image with sixteen bytes whose static mark (bytes 0xe and 0xf) is 1, so
that only address 0 is writable.  Reached from raw data through try_from. -/
def markOneData : List Nat := [3, 0, 0, 0, 0, 0, 0, 0, 0, 0, 0, 0, 0, 0, 0, 1]

/-- The memory map that try_from builds from markOneData. -/
def markOneImage : MemoryMap :=
  { version := 3, memory_map := markOneData, dynamic_restore := [3], static_mark := 1 }

/-- Claim C1, counterexample: set_word at address 0 on an image whose static
mark is 1 is rejected by the guard (the second byte lands on the mark), yet
memory is not left unchanged: the high byte has already been stored at
address 0.  This refutes the claim that when the guard rejects the write,
memory is left completely unchanged. -/
theorem set_word_partial_write_persists :
    MemoryMap.try_from markOneData = .ok markOneImage ∧
    (markOneImage.set_word 0 0xABCD).2 = .error (.writeViolation 1 0) ∧
    (markOneImage.set_word 0 0xABCD).1.memory_map ≠ markOneImage.memory_map ∧
    (markOneImage.set_word 0 0xABCD).1.memory_map.getD 0 0 = 0xAB := by
  refine ⟨by decide, by decide, by decide, by decide⟩

/-- Claim C1, amended: set_word is two guarded byte writes; when a + 1 is
still below the static mark both bytes of the word are stored big-endian at a
and a + 1; when a is at or above the mark the guard rejects the write and
memory is completely unchanged; but in the boundary case a = mark − 1 the
high byte is stored before the guard rejects the low byte, so a half-written
word does persist past the guard in exactly that case. -/
theorem set_word_guarded_writes (mm : MemoryMap) (a v : Nat)
    (hwf : mm.static_mark ≤ mm.memory_map.length) :
    (a + 1 < mm.static_mark →
      mm.set_word a v =
        ({ mm with memory_map :=
             (mm.memory_map.set a ((v >>> 8) &&& 0xFF)).set (a + 1) (v &&& 0xFF) },
         .ok ())) ∧
    (mm.static_mark ≤ a →
      mm.set_word a v = (mm, .error (.writeViolation a (mm.static_mark - 1)))) ∧
    (a + 1 = mm.static_mark →
      mm.set_word a v =
        ({ mm with memory_map := mm.memory_map.set a ((v >>> 8) &&& 0xFF) },
         .error (.writeViolation (a + 1) (mm.static_mark - 1)))) := by
  refine ⟨fun h1 => ?_, fun h2 => ?_, fun h3 => ?_⟩
  · have ha : a < mm.static_mark := by omega
    have ha' : a < mm.memory_map.length := by omega
    have hb' : a + 1 < mm.memory_map.length := by omega
    simp [MemoryMap.set_word, MemoryMap.set_byte, ha, ha', h1, hb']
  · have ha : ¬ a < mm.static_mark := by omega
    simp [MemoryMap.set_word, MemoryMap.set_byte, ha]
  · have ha : a < mm.static_mark := by omega
    have ha' : a < mm.memory_map.length := by omega
    have hb : ¬ a + 1 < mm.static_mark := by omega
    simp [MemoryMap.set_word, MemoryMap.set_byte, ha, ha', hb, h3]

/-- Witness for set_word_guarded_writes at a concrete image: writing the word
at address 5 of an image whose static mark is 1 is rejected with the memory
untouched. -/
theorem set_word_guarded_writes_witness :
    markOneImage.set_word 5 0x1234 = (markOneImage, .error (.writeViolation 5 0)) :=
  (set_word_guarded_writes markOneImage 5 0x1234 (by decide)).2.1 (by decide)

/-- Image of 0x10001 zero bytes, one byte longer than the 64KiB read window. -/
def bigData : List Nat := List.replicate 0x10001 0

/-- The memory map that try_from builds from bigData (its static mark, read
from bytes 0xe and 0xf, is 0). -/
def bigImage : MemoryMap :=
  { version := 0, memory_map := bigData, dynamic_restore := [], static_mark := 0 }

/-- Claim C9, counterexample: on an image of length N = 0x10001 the read of
address 0x10000 fails with ReadViolation even though 0x10000 < N, because
get_byte also restricts reads to the bottom 64KiB.  This refutes the claim
that get_byte fails exactly when the address is at least N. -/
theorem read_beyond_64k_fails :
    MemoryMap.try_from bigData = .ok bigImage ∧
    0x10000 < bigImage.len ∧
    bigImage.get_byte 0x10000 = .error (.readViolation 0x10000 0x10001) := by
  have hlen : bigData.length = 0x10001 := by
    rw [bigData, List.length_replicate]
  have hgd : ∀ i : Nat, i < 0x10001 → bigData.getD i 0 = 0 := by
    intro i hi
    rw [bigData, List.getD_eq_getElem?_getD, List.getElem?_replicate, if_pos hi]
    rfl
  refine ⟨?_, ?_, ?_⟩
  · simp only [MemoryMap.try_from, hlen, hgd 0xe (by norm_num), hgd 0xf (by norm_num),
      hgd 0 (by norm_num)]
    norm_num [bigImage, bigData, List.take_replicate]
  · simp only [MemoryMap.len, bigImage, hlen]
    norm_num
  · simp only [MemoryMap.get_byte, MemoryMap.len, bigImage, hlen]
    rw [if_neg (by norm_num)]

/-- Helper: masking a byte value shifted left by eight with 0xFF00 changes
nothing. -/
theorem hi_byte_mask (h : Nat) (hh : h < 256) : (h <<< 8) &&& 0xFF00 = h <<< 8 := by
  apply Nat.eq_of_testBit_eq
  intro i
  rw [Nat.testBit_land]
  rcases lt_or_ge i 8 with hi | hi
  · have h1 : (h <<< 8).testBit i = false := by
      rw [Nat.testBit_shiftLeft, decide_eq_false (by omega : ¬ i ≥ 8), Bool.false_and]
    simp [h1]
  · rcases lt_or_ge i 16 with hi2 | hi2
    · have h2 : (0xFF00 : Nat).testBit i = true := by
        interval_cases i <;> decide
      simp [h2]
    · have hfb : h.testBit (i - 8) = false := by
        apply Nat.testBit_lt_two_pow
        calc h < 256 := hh
          _ = 2 ^ 8 := by norm_num
          _ ≤ 2 ^ (i - 8) := Nat.pow_le_pow_right (by norm_num) (by omega)
      have h1 : (h <<< 8).testBit i = false := by
        rw [Nat.testBit_shiftLeft, hfb, Bool.and_false]
      simp [h1]

/-- Helper: combining two bytes with the shift-mask-or pattern of the source
equals big-endian composition. -/
theorem word_combine (h l : Nat) (hh : h < 256) (hl : l < 256) :
    ((h <<< 8) &&& 0xFF00) ||| (l &&& 0xFF) = 256 * h + l := by
  have hml : l &&& 0xFF = l := by
    have h8 := Nat.and_pow_two_sub_one_eq_mod l 8
    norm_num at h8
    rw [h8, Nat.mod_eq_of_lt hl]
  rw [hml, hi_byte_mask h hh, Nat.shiftLeft_eq]
  have h2 := Nat.mul_add_lt_is_or (show l < 2 ^ 8 by omega) h
  norm_num at h2
  rw [show h * 2 ^ 8 = 256 * h by ring]
  exact h2.symm

/-- Claim C9, amended: get_byte a returns the image byte at a exactly when
a < min N 0x10000 (reads are additionally restricted to the bottom 64KiB of
the image, so they also fail for a ≤ 0xFFFF < a even when a < N) and fails
with ReadViolation otherwise; get_word reads two successive bytes big-endian
under the same rule. -/
theorem get_byte_word_rule (mm : MemoryMap) (a : Nat)
    (hbytes : ∀ b ∈ mm.memory_map, b < 256) :
    (mm.get_byte a = if a < min mm.len 0x10000 then .ok (mm.memory_map.getD a 0)
                     else .error (.readViolation a mm.len)) ∧
    (a + 1 < min mm.len 0x10000 →
      mm.get_word a = .ok (256 * mm.memory_map.getD a 0 + mm.memory_map.getD (a + 1) 0)) := by
  have hgb : ∀ x : Nat, mm.get_byte x = if x ≤ 0xFFFF ∧ x < mm.len then
      .ok (mm.memory_map.getD x 0) else .error (.readViolation x mm.len) := fun _ => rfl
  constructor
  · rw [hgb a]
    by_cases h : a < min mm.len 0x10000
    · rw [if_pos (by omega), if_pos h]
    · rw [if_neg (by omega), if_neg h]
  · intro h
    have h1 : mm.get_byte a = .ok (mm.memory_map.getD a 0) := by
      rw [hgb a, if_pos (by omega)]
    have h2 : mm.get_byte (a + 1) = .ok (mm.memory_map.getD (a + 1) 0) := by
      rw [hgb (a + 1), if_pos (by omega)]
    have hm1 : mm.memory_map.getD a 0 < 256 := by
      have hlt : a < mm.memory_map.length := by
        have := h; simp only [MemoryMap.len] at this ⊢; omega
      rw [List.getD_eq_getElem _ _ hlt]
      exact hbytes _ (List.getElem_mem hlt)
    have hm2 : mm.memory_map.getD (a + 1) 0 < 256 := by
      have hlt : a + 1 < mm.memory_map.length := by
        have := h; simp only [MemoryMap.len] at this ⊢; omega
      rw [List.getD_eq_getElem _ _ hlt]
      exact hbytes _ (List.getElem_mem hlt)
    calc mm.get_word a
        = .ok (((mm.memory_map.getD a 0 <<< 8) &&& 0xFF00) |||
               (mm.memory_map.getD (a + 1) 0 &&& 0xFF)) := by
          simp only [MemoryMap.get_word, h1, h2]
          rfl
      _ = .ok (256 * mm.memory_map.getD a 0 + mm.memory_map.getD (a + 1) 0) := by
          rw [word_combine _ _ hm1 hm2]

/-- Witness for get_byte_word_rule at a concrete image: byte 0xe of
markOneData is 0 and the word at 0xe is 1. -/
theorem get_byte_word_rule_witness :
    markOneImage.get_byte 0xe = .ok 0 ∧ markOneImage.get_word 0xe = .ok 1 := by
  have h := get_byte_word_rule markOneImage 0xe (by decide)
  exact ⟨by rw [h.1]; decide, by rw [h.2 (by decide)]; decide⟩

/-- Byte fetch of the instruction decoder, from read_byte in
src/components/instruction.rs (state.rs and text.rs define the same helper).
The Rust code indexes the Vec directly and panics out of range; the model
returns 0 there, and every claim below only reads inside the image. -/
def read_byte (mem : List Nat) (address : Nat) : Nat := mem.getD address 0

/-- Big-endian word fetch of the instruction decoder, from read_word in
src/components/instruction.rs. -/
def read_word (mem : List Nat) (address : Nat) : Nat :=
  ((read_byte mem address <<< 8) &&& 0xFF00) ||| (read_byte mem (address + 1) &&& 0xFF)

/-- Reinterpretation of a 16-bit unsigned pattern as the signed value of a
Rust `as i16` cast. -/
def toI16 (n : Nat) : Int :=
  if n % 65536 < 0x8000 then (n % 65536 : Int) else (n % 65536 : Int) - 65536

/-- Unsigned 16-bit pattern of a signed value, the Rust `as u16` cast. -/
def wrap16 (x : Int) : Nat := (x % 65536).toNat

/-- Branch descriptor, from struct BranchOffset in
src/components/instruction.rs. -/
structure BranchOffset where
  size : Nat
  condition : Bool
  return_value : Option Nat
  address : Option Nat
deriving DecidableEq, Repr

/-- Branch decoding, from decode_branch_offset in
src/components/instruction.rs.  In the one-byte form the target is
address + offset - 1 with offset ≥ 2, so the Nat subtraction is exact; in
the two-byte form the Rust casts the possibly negative isize sum back to
usize, modelled with Int.toNat. -/
def decode_branch_offset (mem : List Nat) (address : Nat) : BranchOffset :=
  let b1 := read_byte mem address
  let condition := b1 &&& 0x80 == 0x80
  if b1 &&& 0x40 = 0x40 then
    let offset := b1 &&& 0x3F
    if offset = 0 then { size := 1, condition, return_value := some 0, address := none }
    else if offset = 1 then { size := 1, condition, return_value := some 1, address := none }
    else { size := 1, condition, return_value := none, address := some (address + offset - 1) }
  else
    let high0 := b1 &&& 0x3F
    let high := if high0 &&& 0x20 = 0x20 then high0 ||| 0xC0 else high0
    let low := read_byte mem (address + 1)
    let offset : Int := toI16 (((high <<< 8) &&& 0xFF00) ||| (low &&& 0xFF))
    if offset = 0 then { size := 2, condition, return_value := some 0, address := none }
    else if offset = 1 then { size := 2, condition, return_value := some 1, address := none }
    else { size := 2, condition, return_value := none,
           address := some ((address + offset).toNat) }

/-- Opcode form, from enum OpcodeForm in src/components/instruction.rs.  The
Variable constructor is named varForm because variable is a Lean keyword. -/
inductive OpcodeForm where
  | long
  | short
  | extended
  | varForm
deriving DecidableEq, Repr

/-- Form classification of an opcode byte, from the From impl of OpcodeForm. -/
def OpcodeForm.from (opcode : Nat) : OpcodeForm :=
  if opcode = 0xBE then .extended
  else match (opcode >>> 6) &&& 0x3 with
    | 2 => .short
    | 3 => .varForm
    | _ => .long

/-- Branch-byte presence per opcode, from get_branch_offset in
src/components/instruction.rs.  The opcode argument is a u8, so the final
branch of the Rust match (0xE0..=0xFF) is the fallthrough case here. -/
def get_branch_offset (mem : List Nat) (address opcode : Nat) (form : OpcodeForm) :
    Option BranchOffset :=
  match form with
  | .extended =>
    if opcode = 6 ∨ opcode = 24 ∨ opcode = 27 then some (decode_branch_offset mem address)
    else none
  | _ =>
    if opcode ≤ 0x7F ∨ (0xC0 ≤ opcode ∧ opcode ≤ 0xDF) then
      if (opcode &&& 0x1F) ∈ [1, 2, 3, 4, 5, 6, 7, 10] then
        some (decode_branch_offset mem address)
      else none
    else if 0x80 ≤ opcode ∧ opcode ≤ 0xAF then
      if (opcode &&& 0xF) ∈ [0, 1, 2] then some (decode_branch_offset mem address) else none
    else if 0xB0 ≤ opcode ∧ opcode ≤ 0xBF then
      if (opcode &&& 0xF) = 13 ∨ (opcode &&& 0xF) = 15 then
        some (decode_branch_offset mem address)
      else if (opcode &&& 0xF) = 5 ∨ (opcode &&& 0xF) = 6 then
        if read_byte mem 0 < 4 then some (decode_branch_offset mem address) else none
      else none
    else
      if (opcode &&& 0x1F) = 17 ∨ (opcode &&& 0x1F) = 31 then
        some (decode_branch_offset mem address)
      else none

/-- Memory for the claim example: a branching 0OP instruction (0xBD, verify)
at 0x1000 followed by the short branch byte 0xC3. -/
def exShortMem : List Nat := List.replicate 0x1000 0 ++ [0xBD, 0xC3]

/-- Memory for the claim example: verify at 0x1000 followed by the long
branch bytes 0x80 0x05. -/
def exLongMem : List Nat := List.replicate 0x1000 0 ++ [0xBD, 0x80, 0x05]

/-- Memory for the claim example: verify at 0x1000 followed by the branch
byte 0xC0 (offset 0, return false). -/
def exRetMem : List Nat := List.replicate 0x1000 0 ++ [0xBD, 0xC0]

/-- Helper: reading past the zero padding of the example memories lands in
the instruction bytes. -/
theorem read_byte_pad (rest : List Nat) (k : Nat) :
    read_byte (List.replicate 0x1000 0 ++ rest) (0x1000 + k) = read_byte rest k := by
  unfold read_byte
  rw [List.getD_eq_getElem?_getD, List.getD_eq_getElem?_getD,
    List.getElem?_append_right (by rw [List.length_replicate]; omega), List.length_replicate,
    Nat.add_sub_cancel_left]

/-- Helper: or-ing 0xC0 onto a six-bit value is plain addition. -/
theorem lor_c0 (h : Nat) (hh : h < 64) : h ||| 0xC0 = h + 0xC0 := by
  have h2 := Nat.mul_add_lt_is_or (show h < 2 ^ 6 by omega) 3
  norm_num at h2
  calc h ||| 0xC0 = 0xC0 ||| h := Nat.lor_comm _ _
    _ = 0xC0 + h := h2.symm
    _ = h + 0xC0 := by omega

/-- Helper: the sign extension performed by decode_branch_offset (or the top
bits with 0xC0, assemble a u16, cast to i16) equals 14-bit sign extension of
the raw branch value high * 256 + low. -/
theorem sign_extend14 (h l : Nat) (hh : h ≤ 0x3F) (hl : l < 256) :
    toI16 (((if h &&& 0x20 = 0x20 then h ||| 0xC0 else h) <<< 8 &&& 0xFF00) |||
      (l &&& 0xFF)) =
      (if h * 256 + l < 0x2000 then ((h * 256 + l : Nat) : Int)
       else ((h * 256 + l : Nat) : Int) - 0x4000) := by
  have hand : ∀ x < 64, x &&& 0x20 = (if 32 ≤ x then 32 else 0) := by decide
  rcases (by omega : h < 32 ∨ 32 ≤ h) with hc | hc
  · have hcond : ¬ (h &&& 0x20 = 0x20) := by
      rw [hand h (by omega), if_neg (by omega)]
      omega
    rw [if_neg hcond, word_combine h l (by omega) hl, if_pos (by omega)]
    unfold toI16
    rw [if_pos (by omega)]
    omega
  · have hcond : h &&& 0x20 = 0x20 := by
      rw [hand h (by omega), if_pos hc]
    rw [if_pos hcond, lor_c0 h (by omega), word_combine (h + 0xC0) l (by omega) hl,
      if_neg (by omega)]
    unfold toI16
    rw [if_neg (by omega)]
    omega

/-- Helper: branch bytes of the short example. -/
theorem exShort_byte : read_byte exShortMem 0x1001 = 0xC3 := by
  unfold exShortMem
  rw [show (0x1001 : Nat) = 0x1000 + 1 by norm_num, read_byte_pad]
  rfl

/-- Helper: first branch byte of the long example. -/
theorem exLong_byte1 : read_byte exLongMem 0x1001 = 0x80 := by
  unfold exLongMem
  rw [show (0x1001 : Nat) = 0x1000 + 1 by norm_num, read_byte_pad]
  rfl

/-- Helper: second branch byte of the long example. -/
theorem exLong_byte2 : read_byte exLongMem (0x1001 + 1) = 0x05 := by
  unfold exLongMem
  rw [show (0x1001 + 1 : Nat) = 0x1000 + 2 by norm_num, read_byte_pad]
  rfl

/-- Helper: branch byte of the return-false example. -/
theorem exRet_byte : read_byte exRetMem 0x1001 = 0xC0 := by
  unfold exRetMem
  rw [show (0x1001 : Nat) = 0x1000 + 1 by norm_num, read_byte_pad]
  rfl

/-- Claim C2, amended: a branching opcode consumes 1 or 2 branch bytes; bit 7
of the first byte is the branch sense and bit 6 selects the 6-bit short form
(bit set, one byte) against the 14-bit signed long form (bit clear, two
bytes); offsets 0 and 1 mean return-false and return-true, any other offset
targets the address that is PC-relative from the byte after the branch data
minus 2.  For the verify instruction at 0x1000 (branch data at 0x1001),
branch byte 0xC3 targets 0x1003 and branch byte 0xC0 returns false, as the
claim says, but branch bytes 0x80 0x05 target 0x1006, not 0x1005. -/
theorem branch_decode_spec (mem : List Nat) (a : Nat)
    (hb1 : read_byte mem a < 256) (hb2 : read_byte mem (a + 1) < 256) :
    ((decode_branch_offset mem a).condition = (read_byte mem a &&& 0x80 == 0x80)) ∧
    (read_byte mem a &&& 0x40 = 0x40 →
      (decode_branch_offset mem a).size = 1 ∧
      (2 ≤ read_byte mem a &&& 0x3F →
        (decode_branch_offset mem a).return_value = none ∧
        (decode_branch_offset mem a).address =
          some (a + 1 + (read_byte mem a &&& 0x3F) - 2)) ∧
      (read_byte mem a &&& 0x3F = 0 → (decode_branch_offset mem a).return_value = some 0) ∧
      (read_byte mem a &&& 0x3F = 1 → (decode_branch_offset mem a).return_value = some 1)) ∧
    (¬ read_byte mem a &&& 0x40 = 0x40 →
      (decode_branch_offset mem a).size = 2 ∧
      ((if (read_byte mem a &&& 0x3F) * 256 + read_byte mem (a + 1) < 0x2000
        then (((read_byte mem a &&& 0x3F) * 256 + read_byte mem (a + 1) : Nat) : Int)
        else (((read_byte mem a &&& 0x3F) * 256 + read_byte mem (a + 1) : Nat) : Int)
          - 0x4000) = 0 →
        (decode_branch_offset mem a).return_value = some 0) ∧
      ((if (read_byte mem a &&& 0x3F) * 256 + read_byte mem (a + 1) < 0x2000
        then (((read_byte mem a &&& 0x3F) * 256 + read_byte mem (a + 1) : Nat) : Int)
        else (((read_byte mem a &&& 0x3F) * 256 + read_byte mem (a + 1) : Nat) : Int)
          - 0x4000) = 1 →
        (decode_branch_offset mem a).return_value = some 1) ∧
      (∀ off : Int,
        off = (if (read_byte mem a &&& 0x3F) * 256 + read_byte mem (a + 1) < 0x2000
          then (((read_byte mem a &&& 0x3F) * 256 + read_byte mem (a + 1) : Nat) : Int)
          else (((read_byte mem a &&& 0x3F) * 256 + read_byte mem (a + 1) : Nat) : Int)
            - 0x4000) →
        off ≠ 0 → off ≠ 1 →
        (decode_branch_offset mem a).return_value = none ∧
        (decode_branch_offset mem a).address = some (((a : Int) + 2 + off - 2).toNat))) ∧
    decode_branch_offset exShortMem 0x1001 =
      { size := 1, condition := true, return_value := none, address := some 0x1003 } ∧
    decode_branch_offset exLongMem 0x1001 =
      { size := 2, condition := true, return_value := none, address := some 0x1006 } ∧
    decode_branch_offset exRetMem 0x1001 =
      { size := 1, condition := true, return_value := some 0, address := none } := by
  have hh : read_byte mem a &&& 0x3F ≤ 0x3F := Nat.and_le_right
  refine ⟨?_, fun h40 => ⟨?_, fun hoff2 => ⟨?_, ?_⟩, fun h0 => ?_, fun h1 => ?_⟩,
    fun h40 => ?_, ?_, ?_, ?_⟩
  · simp only [decode_branch_offset]
    split_ifs <;> rfl
  · simp only [decode_branch_offset]
    rw [if_pos h40]
    split_ifs <;> rfl
  · simp only [decode_branch_offset]
    rw [if_pos h40, if_neg (by omega), if_neg (by omega)]
  · simp only [decode_branch_offset]
    rw [if_pos h40, if_neg (by omega), if_neg (by omega)]
    exact congrArg some (by omega)
  · simp only [decode_branch_offset]
    rw [if_pos h40, if_pos h0]
  · simp only [decode_branch_offset]
    rw [if_pos h40, if_neg (by omega), if_pos h1]
  · simp only [decode_branch_offset]
    rw [if_neg h40, sign_extend14 (read_byte mem a &&& 0x3F) (read_byte mem (a + 1)) hh hb2]
    refine ⟨?_, fun h0 => ?_, fun h1 => ?_, fun off hoff h0 h1 => ?_⟩
    · split_ifs <;> rfl
    · rw [if_pos h0]
    · rw [if_neg (by rw [h1]; norm_num), if_pos h1]
    · rw [if_neg (by rw [← hoff]; exact h0), if_neg (by rw [← hoff]; exact h1)]
      refine ⟨rfl, congrArg some ?_⟩
      rw [← hoff]
      congr 1
      ring
  · have e1 := exShort_byte
    unfold decode_branch_offset
    rw [e1]
    decide
  · have e1 := exLong_byte1
    have e2 := exLong_byte2
    unfold decode_branch_offset
    rw [e1, e2]
    decide
  · have e1 := exRet_byte
    unfold decode_branch_offset
    rw [e1]
    decide

/-- Claim C2, counterexample: for the branching instruction 0xBD at 0x1000,
the decoder consumes the long-form branch bytes 0x80 0x05 at 0x1001 and
produces the target 0x1006 (address of branch data + 2 + offset − 2), not
0x1005 as the claim states. -/
theorem branch_long_example_target :
    OpcodeForm.from 0xBD = .short ∧
    get_branch_offset exLongMem 0x1001 0xBD (OpcodeForm.from 0xBD) =
      some (decode_branch_offset exLongMem 0x1001) ∧
    (decode_branch_offset exLongMem 0x1001).address = some 0x1006 ∧
    some (0x1006 : Nat) ≠ some (0x1005 : Nat) := by
  refine ⟨rfl, rfl, ?_, by decide⟩
  unfold decode_branch_offset
  rw [exLong_byte1, exLong_byte2]
  decide

/-- Witness for branch_decode_spec at the short example: branch byte 0xC3 at
0x1001 is one byte of branch data targeting 0x1003. -/
theorem branch_decode_spec_witness :
    (decode_branch_offset exShortMem 0x1001).size = 1 ∧
    (decode_branch_offset exShortMem 0x1001).address = some 0x1003 := by
  have h2 : read_byte exShortMem (0x1001 + 1) = 0 := by
    unfold exShortMem
    rw [show (0x1001 + 1 : Nat) = 0x1000 + 2 by norm_num, read_byte_pad]
    rfl
  have h := branch_decode_spec exShortMem 0x1001 (by rw [exShort_byte]; norm_num)
    (by rw [h2]; norm_num)
  have hs := h.2.1 (by rw [exShort_byte]; decide)
  refine ⟨hs.1, ?_⟩
  have ha := (hs.2.1 (by rw [exShort_byte]; decide)).2
  rw [exShort_byte] at ha
  exact ha.trans (by decide)

/-- Normalization of an Int into the signed 16-bit range, modelling the
two's-complement wrapping of i16 addition, subtraction and multiplication in
a release build. -/
def normI16 (x : Int) : Int := (x + 0x8000) % 0x10000 - 0x8000

/-- The add opcode body, from Instruction::add in
src/components/instruction.rs, applied to the already resolved u16 operand
values (get_argument resolves variables and constants before the loop runs).
Rust sums the operands as i16 starting from 0 and stores the sum as u16. -/
def Instruction.add (operands : List Nat) : Except InfocomError Nat :=
  .ok (wrap16 (operands.foldl (fun result arg => normI16 (result + toI16 arg)) 0))

/-- The sub opcode body, from Instruction::sub: starts from operand 0 and
subtracts the remaining operands as i16.  An empty operand vector would make
the Rust operand indexing panic. -/
def Instruction.sub (operands : List Nat) : Except InfocomError Nat :=
  match operands with
  | [] => .error (.rustAbort "operand index out of bounds")
  | a0 :: rest =>
    .ok (wrap16 (rest.foldl (fun result arg => normI16 (result - toI16 arg)) (toI16 a0)))

/-- The mul opcode body, from Instruction::mul. -/
def Instruction.mul (operands : List Nat) : Except InfocomError Nat :=
  match operands with
  | [] => .error (.rustAbort "operand index out of bounds")
  | a0 :: rest =>
    .ok (wrap16 (rest.foldl (fun result arg => normI16 (result * toI16 arg)) (toI16 a0)))

/-- The div opcode body, from Instruction::div: each divisor is checked for 0
before dividing; i16 division is truncated toward zero and panics (in every
build profile) on -32768 / -1, modelled by the rustAbort branch. -/
def Instruction.div (operands : List Nat) : Except InfocomError Nat :=
  match operands with
  | [] => .error (.rustAbort "operand index out of bounds")
  | a0 :: rest => do
    let r ← rest.foldlM (fun result arg =>
      if arg = 0 then .error (.memory "Division by zero")
      else if result = -0x8000 ∧ toI16 arg = -1 then
        .error (.rustAbort "attempt to divide with overflow")
      else (.ok (Int.tdiv result (toI16 arg)) : Except InfocomError Int)) (toI16 a0)
    .ok (wrap16 r)

/-- The mod opcode body, from Instruction::modulo: uses i16::rem_euclid,
whose result is the non-negative Euclidean remainder (Int.emod); the inner
remainder of rem_euclid panics on -32768 and -1, modelled by rustAbort. -/
def Instruction.modulo (operands : List Nat) : Except InfocomError Nat :=
  match operands with
  | [] => .error (.rustAbort "operand index out of bounds")
  | a0 :: rest => do
    let r ← rest.foldlM (fun result arg =>
      if arg = 0 then .error (.memory "Modulo by zero")
      else if result = -0x8000 ∧ toI16 arg = -1 then
        .error (.rustAbort "attempt to calculate the remainder with overflow")
      else (.ok (Int.emod result (toI16 arg)) : Except InfocomError Int)) (toI16 a0)
    .ok (wrap16 r)

/-- Claim C7, counterexample: mod of dividend 0xFFF9 (-7) by divisor 2
stores 1, the non-negative Euclidean remainder, whereas a result with the
sign of the dividend would be -1, stored as 0xFFFF.  This refutes the claim
that for every nonzero divisor the result of mod has the sign of the
dividend. -/
theorem modulo_sign_counterexample :
    Instruction.modulo [0xFFF9, 2] = .ok 1 ∧
    toI16 0xFFF9 = -7 ∧
    wrap16 (Int.tmod (-7) 2) = 0xFFFF ∧
    (1 : Nat) ≠ 0xFFFF := by
  exact ⟨by decide, by decide, by decide, by decide⟩

/-- Helper: normI16 preserves residues modulo 2^16. -/
theorem normI16_emod (x : Int) : normI16 x % 65536 = x % 65536 := by
  unfold normI16
  omega

/-- Helper: wrap16 only depends on the residue modulo 2^16. -/
theorem wrap16_congr (x y : Int) (h : x % 65536 = y % 65536) : wrap16 x = wrap16 y := by
  unfold wrap16
  omega

/-- Helper: wrap16 on a natural number is reduction modulo 2^16. -/
theorem wrap16_natCast (n : Nat) : wrap16 (n : Int) = n % 65536 := by
  unfold wrap16
  omega

/-- Claim C7, amended: for all 16-bit operand patterns, add, sub and mul wrap
modulo 2^16 on the unsigned bit pattern; div and mod fail with an error when
the divisor is 0; div truncates toward zero except on -32768 divided by -1,
where the Rust division overflows and aborts; and mod computes the
non-negative Euclidean remainder (never a negative i16 pattern), not a
remainder with the sign of the dividend. -/
theorem arith_opcode_semantics (a b : Nat) (ha : a < 65536) (hb : b < 65536) :
    Instruction.add [a, b] = .ok ((a + b) % 65536) ∧
    Instruction.sub [a, b] = .ok ((a + 65536 - b) % 65536) ∧
    Instruction.mul [a, b] = .ok ((a * b) % 65536) ∧
    Instruction.div [a, 0] = .error (.memory "Division by zero") ∧
    Instruction.modulo [a, 0] = .error (.memory "Modulo by zero") ∧
    (b ≠ 0 → ¬ (a = 0x8000 ∧ b = 0xFFFF) →
      Instruction.div [a, b] = .ok (wrap16 (Int.tdiv (toI16 a) (toI16 b)))) ∧
    (b ≠ 0 → ¬ (a = 0x8000 ∧ b = 0xFFFF) →
      Instruction.modulo [a, b] = .ok (wrap16 (Int.emod (toI16 a) (toI16 b))) ∧
      0 ≤ Int.emod (toI16 a) (toI16 b) ∧ Int.emod (toI16 a) (toI16 b) < 0x8000) := by
  have htb : toI16 b = 0 ↔ b = 0 := by
    unfold toI16
    split_ifs <;> omega
  have hguard : ¬ (a = 0x8000 ∧ b = 0xFFFF) → ¬ (toI16 a = -0x8000 ∧ toI16 b = -1) := by
    intro hg hc
    apply hg
    unfold toI16 at hc
    rcases hc with ⟨h1, h2⟩
    constructor
    · split_ifs at h1 <;> omega
    · split_ifs at h2 <;> omega
  have hA : toI16 a % 65536 = (a : Int) % 65536 := by unfold toI16; split_ifs <;> omega
  have hB : toI16 b % 65536 = (b : Int) % 65536 := by unfold toI16; split_ifs <;> omega
  refine ⟨?_, ?_, ?_, rfl, rfl, fun hbne hg => ?_, fun hbne hg => ?_⟩
  · simp only [Instruction.add, List.foldl]
    congr 1
    simp only [toI16, normI16, wrap16]
    split_ifs <;> omega
  · simp only [Instruction.sub, List.foldl]
    congr 1
    simp only [toI16, normI16, wrap16]
    split_ifs <;> omega
  · simp only [Instruction.mul, List.foldl]
    have hAB : (toI16 a * toI16 b) % 65536 = ((a : Int) * b) % 65536 := by
      conv_lhs => rw [Int.mul_emod, hA, hB, ← Int.mul_emod]
    congr 1
    rw [wrap16_congr _ _ ((normI16_emod _).trans hAB),
      wrap16_congr _ _
        (show ((a : Int) * b) % 65536 = (((a * b : Nat) : Int)) % 65536 by push_cast; ring_nf),
      wrap16_natCast]
  · simp only [Instruction.div, List.foldlM]
    rw [if_neg hbne, if_neg (hguard hg)]
    rfl
  · refine ⟨?_, Int.emod_nonneg _ (fun h => hbne (htb.mp h)), ?_⟩
    · simp only [Instruction.modulo, List.foldlM]
      rw [if_neg hbne, if_neg (hguard hg)]
      rfl
    · have hlt : Int.emod (toI16 a) (toI16 b) < |toI16 b| :=
        Int.emod_lt (toI16 a) (fun h => hbne (htb.mp h))
      have habs : |toI16 b| ≤ 0x8000 := by
        unfold toI16
        split_ifs with h
        · rw [abs_of_nonneg (by omega)]
          omega
        · rw [abs_of_nonpos (by omega)]
          omega
      omega

/-- Witness for arith_opcode_semantics at concrete operands: 7 + 65535 wraps
to 6, and 0xFFF9 (-7) mod 5 gives the Euclidean remainder 3. -/
theorem arith_opcode_semantics_witness :
    Instruction.add [7, 65535] = .ok 6 ∧ Instruction.modulo [0xFFF9, 5] = .ok 3 := by
  have h1 := (arith_opcode_semantics 7 65535 (by norm_num) (by norm_num)).1
  have h2 := ((arith_opcode_semantics 0xFFF9 5 (by norm_num) (by norm_num)).2.2.2.2.2.2
    (by norm_num) (by norm_num)).1
  exact ⟨h1.trans (by norm_num), h2.trans (by decide)⟩

/-- Object record, from struct Object in src/components/object_table.rs.  The
property_table field is omitted here: the attribute operations this
development models never touch it (properties are handled by separate
operations that no claim below involves). -/
structure Object where
  number : Nat
  address : Nat
  attribute_count : Nat
  attributes : Nat
  parent : Nat
  sibling : Nat
  child : Nat
deriving DecidableEq, Repr

/-- Attribute test, from Object::has_attribute.  The guard also accepts
attribute = attribute_count; at that boundary the Rust usize subtraction
attribute_count - attribute - 1 underflows (a panic in a debug build, a
masked shift in release), while the Nat subtraction here saturates to 0 --
no claim exercises that point. -/
def Object.has_attribute (o : Object) (attr : Nat) : Except InfocomError Bool :=
  if attr ≤ o.attribute_count then
    .ok ((o.attributes >>> (o.attribute_count - attr - 1)) &&& 0x1 == 0x1)
  else .error (.memory "Invalid attribute")

/-- Attribute set, from Object::set_attribute: ors in the selected bit under
the same guard; an out-of-range attribute is only logged (warn) and the
attributes are returned unchanged.  The returned pair is the mutated object
together with the Ok value of the Rust function. -/
def Object.set_attribute (o : Object) (attr : Nat) :
    Except InfocomError (Object × Nat) :=
  if attr ≤ o.attribute_count then
    let mask := 1 <<< (o.attribute_count - attr - 1)
    let attributes := o.attributes ||| mask
    .ok ({ o with attributes := attributes }, attributes)
  else .ok (o, o.attributes)

/-- Mask built by the loop in Object::clear_attribute: attribute_count / 8
bytes of ones. -/
def clear_mask (count : Nat) : Nat :=
  (List.range (count / 8)).foldl (fun mask _ => (mask <<< 8) ||| 0xFF) 0

/-- Attribute clear, from Object::clear_attribute: ands the attributes with
the all-ones byte mask xor the selected bit; out of range is only logged. -/
def Object.clear_attribute (o : Object) (attr : Nat) :
    Except InfocomError (Object × Nat) :=
  if attr ≤ o.attribute_count then
    let mask := clear_mask o.attribute_count ^^^ (1 <<< (o.attribute_count - attr - 1))
    let attributes := o.attributes &&& mask
    .ok ({ o with attributes := attributes }, attributes)
  else .ok (o, o.attributes)

/-- Object used in the attribute counterexample: a V3 object (32 attribute
bits) whose attribute 0 (the top bit of the first attribute word) is set. -/
def attrObject : Object :=
  { number := 1, address := 0x100, attribute_count := 32, attributes := 0x80000000,
    parent := 0, sibling := 0, child := 0 }

/-- Claim C8, counterexample: on an object whose attribute 0 is already set,
set_attribute 0 followed by clear_attribute 0 leaves the attribute field 0,
not the original 0x80000000, so the set-then-clear round trip does not
restore the attributes exactly. -/
theorem set_clear_not_restoring :
    attrObject.set_attribute 0 = .ok (attrObject, 0x80000000) ∧
    (do
      let p ← attrObject.set_attribute 0
      p.1.clear_attribute 0) =
        .ok ({ attrObject with attributes := 0 }, 0) ∧
    (0 : Nat) ≠ attrObject.attributes := by
  exact ⟨by decide, by decide, by decide⟩

/-- Helper: the low-bit test of has_attribute is Nat.testBit. -/
theorem shift_and_one (x k : Nat) : ((x >>> k) &&& 1 == 1) = x.testBit k := by
  rw [Nat.testBit_to_div_mod, Nat.and_one_is_mod, Nat.shiftRight_eq_div_pow]
  rw [Bool.eq_iff_iff]
  simp

/-- Claim C8, amended: for an attribute number a strictly inside the
object's attribute count, has_attribute tests bit attribute_count - 1 - a
counting from the least significant bit (so attribute 0 is the top bit of
the attribute field); set_attribute then clear_attribute of a yields the
original attributes with that bit cleared, which restores attributes(n)
exactly when and only when the bit was clear to begin with. -/
theorem attribute_bit_semantics (o : Object) (a : Nat)
    (hcount : o.attribute_count = 32 ∨ o.attribute_count = 48)
    (hattr : o.attributes < 2 ^ o.attribute_count)
    (ha : a < o.attribute_count) :
    o.has_attribute a = .ok (o.attributes.testBit (o.attribute_count - 1 - a)) ∧
    (∀ o1 r1, o.set_attribute a = .ok (o1, r1) →
      ∀ o2 r2, o1.clear_attribute a = .ok (o2, r2) →
        (∀ j, o2.attributes.testBit j =
          (o.attributes.testBit j && !(j == o.attribute_count - 1 - a))) ∧
        (o.attributes.testBit (o.attribute_count - 1 - a) = false →
          o2.attributes = o.attributes)) := by
  have hcm : clear_mask o.attribute_count = 2 ^ o.attribute_count - 1 := by
    rcases hcount with h | h <;> rw [h] <;> decide
  have hk : o.attribute_count - a - 1 = o.attribute_count - 1 - a := by omega
  constructor
  · unfold Object.has_attribute
    rw [if_pos (by omega), shift_and_one, hk]
  · intro o1 r1 hset o2 r2 hclear
    unfold Object.set_attribute at hset
    rw [if_pos (by omega)] at hset
    simp only [Except.ok.injEq, Prod.mk.injEq] at hset
    obtain ⟨ho1, -⟩ := hset
    subst ho1
    unfold Object.clear_attribute at hclear
    rw [if_pos (show a ≤ o.attribute_count by omega)] at hclear
    simp only [Except.ok.injEq, Prod.mk.injEq] at hclear
    obtain ⟨ho2, -⟩ := hclear
    subst ho2
    dsimp only
    have hbit : ∀ j,
        ((o.attributes ||| 1 <<< (o.attribute_count - a - 1)) &&&
          (clear_mask o.attribute_count ^^^ 1 <<< (o.attribute_count - a - 1))).testBit j =
        (o.attributes.testBit j && !(j == o.attribute_count - 1 - a)) := by
      intro j
      rw [hcm, Nat.testBit_land, Nat.testBit_lor, Nat.testBit_xor,
        Nat.testBit_two_pow_sub_one, Nat.shiftLeft_eq, one_mul, Nat.testBit_two_pow, hk]
      by_cases hj : j = o.attribute_count - 1 - a
      · simp [hj]
        omega
      · have hd1 : (decide (o.attribute_count - 1 - a = j)) = false := by
          simp
          omega
        have hd2 : (j == o.attribute_count - 1 - a) = false := by
          simp
          omega
        rw [hd1, hd2]
        by_cases hlt : j < o.attribute_count
        · simp [hlt]
        · have hhi : o.attributes.testBit j = false := by
            apply Nat.testBit_lt_two_pow
            calc o.attributes < 2 ^ o.attribute_count := hattr
              _ ≤ 2 ^ j := Nat.pow_le_pow_right (by norm_num) (by omega)
          simp [hlt, hhi]
    refine ⟨hbit, fun hclr => ?_⟩
    apply Nat.eq_of_testBit_eq
    intro j
    rw [hbit j]
    by_cases hj : j = o.attribute_count - 1 - a
    · simp [hj, hclr]
    · simp [hj]

/-- Witness for attribute_bit_semantics at a concrete object: attribute 3 of
attrObject (bit 28 of 0x80000000) is clear. -/
theorem attribute_bit_semantics_witness :
    attrObject.has_attribute 3 = .ok false := by
  have h := (attribute_bit_semantics attrObject 3 (Or.inl rfl) (by decide) (by decide)).1
  exact h.trans (by decide)

/-- Claim C10: for an attribute number strictly greater than the object's
attribute count, set_attribute and clear_attribute succeed and leave the
attribute field unchanged (the invalid index is only logged), while
has_attribute fails with a Memory error. -/
theorem out_of_range_attribute_ops (o : Object) (a : Nat)
    (h : o.attribute_count < a) :
    o.set_attribute a = .ok (o, o.attributes) ∧
    o.clear_attribute a = .ok (o, o.attributes) ∧
    o.has_attribute a = .error (.memory "Invalid attribute") := by
  unfold Object.set_attribute Object.clear_attribute Object.has_attribute
  simp only [if_neg (show ¬ a ≤ o.attribute_count by omega)]
  exact ⟨trivial, trivial, trivial⟩

/-- Witness for out_of_range_attribute_ops: attribute 33 on a 32-attribute
object. -/
theorem out_of_range_attribute_ops_witness :
    attrObject.set_attribute 33 = .ok (attrObject, 0x80000000) ∧
    attrObject.has_attribute 33 = .error (.memory "Invalid attribute") := by
  have h := out_of_range_attribute_ops attrObject 33 (by decide)
  exact ⟨h.1, h.2.2⟩

/-- Routine header, from struct Routine in src/components/state.rs. -/
structure Routine where
  address : Nat
  default_variables : List Nat
  instruction_address : Nat
deriving DecidableEq, Repr

/-- Byte fetch of the frame stack, from read_byte in src/components/state.rs
(it indexes mem.get_memory() directly). -/
def state_read_byte (mm : MemoryMap) (address : Nat) : Nat :=
  read_byte mm.memory_map address

/-- Word fetch of the frame stack, from read_word in src/components/state.rs. -/
def state_read_word (mm : MemoryMap) (address : Nat) : Nat :=
  read_word mm.memory_map address

/-- Routine parsing, from Routine::new: the local count is the byte at the
routine address (the Rust code does not bound it by 15); in V1 to V4 the
defaults are the words following it and execution starts after them, in V5+
the defaults are zeros and execution starts at address + 1.  The Rust loop
fills a vec![0; count] entry by entry; the map over List.range builds the
same vector. -/
def Routine.new (mm : MemoryMap) (address : Nat) : Except InfocomError Routine :=
  let variable_count := state_read_byte mm address
  if mm.version = 1 ∨ mm.version = 2 ∨ mm.version = 3 ∨ mm.version = 4 then
    .ok { address := address,
          default_variables :=
            (List.range variable_count).map (fun i => state_read_word mm (address + 1 + i * 2)),
          instruction_address := address + 1 + 2 * variable_count }
  else
    .ok { address := address, default_variables := List.replicate variable_count 0,
          instruction_address := address + 1 }

/-- Call frame, from struct Frame in src/components/state.rs. -/
structure Frame where
  routine : Routine
  local_variables : List Nat
  stack : List Nat
  pc : Nat
  return_variable : Option Nat
  return_address : Nat
deriving DecidableEq, Repr

/-- Frame construction, from Frame::new: the locals start as the routine
defaults and the loop local_variables[i] = arg overwrites the first
len(arguments) of them; when there are more arguments than locals that
indexing panics (modelled by the rustAbort branch).  In the guarded case the
append-drop expression is exactly the overwritten vector.  The new frame's
evaluation stack is empty and its pc is the routine's instruction address. -/
def Frame.new (routine : Routine) (arguments : List Nat) (return_variable : Option Nat)
    (return_address : Nat) : Except InfocomError Frame :=
  if arguments.length ≤ routine.default_variables.length then
    .ok { routine := routine,
          local_variables := arguments ++ routine.default_variables.drop arguments.length,
          stack := [], pc := routine.instruction_address,
          return_variable := return_variable, return_address := return_address }
  else .error (.rustAbort "index out of bounds: the argument loop writes past the locals vector")

/-- Stack push, from Frame::push (Vec::push appends at the end). -/
def Frame.push (f : Frame) (value : Nat) : Frame :=
  { f with stack := f.stack ++ [value] }

/-- Stack peek, from Frame::peek. -/
def Frame.peek (f : Frame) : Except InfocomError Nat :=
  match f.stack.getLast? with
  | some v => .ok v
  | none => .error (.memory "Peek into empty stack")

/-- Stack pop, from Frame::pop: removes and returns the last element. -/
def Frame.pop (f : Frame) : Except InfocomError (Nat × Frame) :=
  if f.stack.length > 0 then
    .ok (f.stack.getLastD 0, { f with stack := f.stack.dropLast })
  else .error (.memory "Pop from empty stack")

/-- Frame stack, from struct FrameStack in src/components/state.rs.  The rng
and dictionary fields are omitted: no operation modelled here touches them. -/
structure FrameStack where
  memory : MemoryMap
  global_variable_table_address : Nat
  stack : List Frame
  current_frame : Frame
deriving DecidableEq, Repr

/-- Packed address unpacking, from FrameStack::unpack_address. -/
def FrameStack.unpack_address (fs : FrameStack) (packed_address : Nat) :
    Except InfocomError Nat :=
  if fs.memory.version = 1 ∨ fs.memory.version = 2 ∨ fs.memory.version = 3 then
    .ok (packed_address * 2)
  else if fs.memory.version = 4 ∨ fs.memory.version = 5 then
    .ok (packed_address * 4)
  else if fs.memory.version = 8 then
    .ok (packed_address * 8)
  else .error (.memory "Unimplemented version")

/-- Variable write, from FrameStack::set_variable.  variable_number is a u8,
so the final arm is the 16..=255 range of the Rust match. -/
def FrameStack.set_variable (fs : FrameStack) (variable_number value : Nat)
    (indirect : Bool) : Except InfocomError FrameStack :=
  if variable_number = 0 then
    if indirect then
      match fs.current_frame.pop with
      | .error e => .error e
      | .ok (_, f1) => .ok { fs with current_frame := f1.push value }
    else .ok { fs with current_frame := fs.current_frame.push value }
  else if variable_number ≤ 15 then
    if variable_number ≤ fs.current_frame.local_variables.length then
      .ok { fs with current_frame := { fs.current_frame with
        local_variables :=
          fs.current_frame.local_variables.set (variable_number - 1) value } }
    else .error (.memory "Write to variable that does not exist")
  else
    match fs.memory.set_wordE
        (fs.global_variable_table_address + (variable_number - 16) * 2) value with
    | .ok mm => .ok { fs with memory := mm }
    | .error e => .error e

/-- Routine call, from FrameStack::call: packed address 0 stores 0 into the
return variable (when any) and resumes at the return address; otherwise the
routine is parsed at the unpacked address, the caller frame is pushed and
the new frame becomes current.  The Rust function mutates self and returns
the next pc; the pair returned here carries both. -/
def FrameStack.call (fs : FrameStack) (packed_address : Nat) (arguments : List Nat)
    (return_variable : Option Nat) (return_address : Nat) :
    Except InfocomError (Nat × FrameStack) :=
  if packed_address = 0 then
    match return_variable with
    | some v => do
      let fs1 ← fs.set_variable v 0 false
      .ok (return_address, fs1)
    | none => .ok (return_address, fs)
  else do
    let address ← fs.unpack_address packed_address
    let routine ← Routine.new fs.memory address
    let f ← Frame.new routine arguments return_variable return_address
    .ok (f.pc, { fs with stack := fs.stack ++ [fs.current_frame], current_frame := f })

/-- Image for the call claim: a V3 story with a routine of 0 locals at 0x10
(packed address 8) and a routine of 2 locals at 0x12 (packed address 9) with
default words 0x1112 and 0x2122. -/
def callData : List Nat :=
  [3, 0, 0, 0, 0, 0, 0, 0, 0, 0, 0, 0, 0, 0, 0, 0x20,
   0, 0, 2, 0x11, 0x12, 0x21, 0x22, 0, 0, 0, 0, 0, 0, 0, 0, 0]

/-- Memory map of callData. -/
def callImage : MemoryMap :=
  { version := 3, memory_map := callData, dynamic_restore := callData, static_mark := 0x20 }

/-- Initial dummy frame, as FrameStack::new builds it from the header pc
(taken as 0 here). -/
def frame0 : Frame :=
  { routine := { address := 0, default_variables := [], instruction_address := 0 },
    local_variables := [], stack := [], pc := 0, return_variable := none,
    return_address := 0 }

/-- Frame stack over callImage. -/
def callFS : FrameStack :=
  { memory := callImage, global_variable_table_address := 0, stack := [],
    current_frame := frame0 }

/-- Claim C3: calling the routine at packed address 8 (unpacked 0x10, local
count 0) with one argument makes the Rust argument loop index past the empty
locals vector and panic, instead of dropping the extra argument and
succeeding as the claim (and the Z-machine standard) requires; the same call
against the 2-local routine at packed address 9 shows every other part of
the claim holding: defaults read at addr + 1.., first argument overwriting
local 0, caller pushed, empty evaluation stack, execution at
addr + 1 + 2 * local_count. -/
theorem call_extra_args_out_of_bounds :
    callFS.call 8 [7] none 0x99 =
      .error (.rustAbort "index out of bounds: the argument loop writes past the locals vector") ∧
    callFS.call 9 [7] none 0x99 =
      .ok (0x17, { callFS with stack := [frame0], current_frame :=
        { routine := { address := 0x12, default_variables := [0x1112, 0x2122],
                       instruction_address := 0x17 },
          local_variables := [7, 0x2122], stack := [], pc := 0x17,
          return_variable := none, return_address := 0x99 } }) := by
  exact ⟨by decide, by decide⟩

/-- Table of accented and non-Latin characters for ZSCII codes from 155 on,
from Alphabet::new in src/components/text.rs (the default table; the V5+
header-extension override is outside the claims). -/
def zsciiTable : List Char :=
  ['ä', 'ö', 'ü', 'Ä', 'Ö', 'Ü', 'ß', '»', '«', 'ë', 'ï', 'ÿ', 'Ë', 'Ï', 'á', 'é',
   'í', 'ó', 'ú', 'ý', 'Á', 'É', 'Í', 'Ó', 'Ú', 'Ý', 'à', 'è', 'ì', 'ò', 'ù', 'À',
   'È', 'Ì', 'Ò', 'Ù', 'â', 'ê', 'î', 'ô', 'û', 'Â', 'Ê', 'Ô', 'Û', 'å', 'Å', 'ø',
   'Ø', 'ã', 'ñ', 'õ', 'Ã', 'Ñ', 'Õ', 'æ', 'Æ', 'ç', 'Ç', 'þ', 'ð', 'Þ', 'Ð', '£',
   'œ', 'Œ', '¡', '¿']

/-- The three alphabet rows for V2 to V4, from Alphabet::new in
src/components/text.rs. -/
def alphabetV3 : List (List Char) :=
  [['a', 'b', 'c', 'd', 'e', 'f', 'g', 'h', 'i', 'j', 'k', 'l', 'm',
    'n', 'o', 'p', 'q', 'r', 's', 't', 'u', 'v', 'w', 'x', 'y', 'z'],
   ['A', 'B', 'C', 'D', 'E', 'F', 'G', 'H', 'I', 'J', 'K', 'L', 'M',
    'N', 'O', 'P', 'Q', 'R', 'S', 'T', 'U', 'V', 'W', 'X', 'Y', 'Z'],
   [' ', '\n', '0', '1', '2', '3', '4', '5', '6', '7', '8', '9', '.',
    ',', '!', '?', '_', '#', '\'', '"', '/', '\\', '-', ':', '(', ')']]

/-- Alphabet lookup alphabet[a][i], from the array indexing in the decoders;
the indices stay in range in every call site modelled here. -/
def alphaV3 (a i : Nat) : Char := (alphabetV3.getD a []).getD i ' '

/-- ZSCII escape decoding, from decode_zscii in src/components/text.rs.  The
source masks the shifted high Z-char with 0x3E (instead of 0x3E0), so z only
keeps bit 0 of b1; in particular z never exceeds 63, which makes the
155-and-above arm of its own match unreachable.  The table indexing of that
arm (which could panic at z = 155 + length) is modelled with getD. -/
def decode_zscii (b1 b2 : Nat) : Char :=
  let z := ((b1 <<< 5) &&& 0x3E) ||| (b2 &&& 0x1F)
  if z = 0 then Char.ofNat 0
  else if z = 13 then '\n'
  else if 32 ≤ z ∧ z ≤ 126 then Char.ofNat z
  else if 155 ≤ z ∧ z ≤ 155 + zsciiTable.length then zsciiTable.getD (z - 155) '@'
  else '@'

/-- Worker of read_zbytes with an explicit fuel so the recursion is
structural: the fuel never runs out before the bound check fails, because
the index grows by two each step while the fuel only needs to cover half
the image length. -/
def read_zbytes_go (map : List Nat) : Nat → Nat → Option (List Nat)
  | 0, _ => none
  | fuel + 1, i =>
    if i + 1 < map.length then
      let v := read_word map i
      let b1 := (v >>> 10) &&& 0x1F
      let b2 := (v >>> 5) &&& 0x1F
      let b3 := v &&& 0x1F
      if v &&& 0x8000 = 0x8000 then some [b1, b2, b3]
      else match read_zbytes_go map fuel (i + 2) with
        | some rest => some ([b1, b2, b3] ++ rest)
        | none => none
    else none

/-- Z-byte stream extraction, from read_zbytes in src/components/text.rs:
words are read until one has bit 15 set; each yields three 5-bit Z-chars.
The Rust loop would panic reading past the image if no terminator exists;
that is the none result. -/
def read_zbytes_from (map : List Nat) (i : Nat) : Option (List Nat) :=
  read_zbytes_go map map.length i

/-- Abbreviation entry resolution, from abbreviation_address in
src/components/text.rs. -/
def abbreviation_address (map : List Nat) (table index : Nat) : Nat :=
  let table_address := read_word map 0x18
  let entry_address := table_address + 64 * (table - 1) + 2 * index
  read_word map entry_address * 2

/-- Z-char interpretation loop of DecoderV3::decode from
src/components/text.rs with with_abbreviations = false: Z-chars 1 to 3 are
rejected as nested abbreviations; 4 and 5 set the temporary alphabet; 6 in
A2 consumes the next two Z-chars as a ZSCII escape; the alphabet resets
after every Z-char other than 4 and 5. -/
def decodeV3_go_noab : Nat → List Nat → Except InfocomError (List Char)
  | _, [] => .ok []
  | a, c :: rest =>
    if c = 0 then do
      let s ← decodeV3_go_noab 0 rest
      .ok (' ' :: s)
    else if c = 1 ∨ c = 2 ∨ c = 3 then
      .error (.text "Nested abbreviations not allowed")
    else if c = 4 then decodeV3_go_noab 1 rest
    else if c = 5 then decodeV3_go_noab 2 rest
    else if c = 6 then
      if a = 2 then
        match rest with
        | b1 :: b2 :: rest2 => do
          let s ← decodeV3_go_noab 0 rest2
          .ok (decode_zscii b1 b2 :: s)
        | _ => .error (.text "Text ended on an incomplete ZSCII character")
      else do
        let s ← decodeV3_go_noab 0 rest
        .ok (alphaV3 a (c - 6) :: s)
    else if c = 7 then
      if a = 2 then do
        let s ← decodeV3_go_noab 0 rest
        .ok ('\n' :: s)
      else do
        let s ← decodeV3_go_noab 0 rest
        .ok (alphaV3 a (c - 6) :: s)
    else do
      let s ← decodeV3_go_noab 0 rest
      .ok (alphaV3 a (c - 6) :: s)

/-- String decoding without abbreviations, the with_abbreviations = false
entry of DecoderV3::decode. -/
def decodeV3_noab (map : List Nat) (address : Nat) : Except InfocomError (List Char) :=
  match read_zbytes_from map address with
  | some data => decodeV3_go_noab 0 data
  | none => .error (.rustAbort "read past the end of the image")

/-- Z-char interpretation loop of DecoderV3::decode with
with_abbreviations = true: identical to decodeV3_go_noab except that Z-chars
1 to 3 consume the next Z-char and splice in the abbreviation decoded (without
abbreviations) at the resolved address. -/
def decodeV3_go_ab (map : List Nat) : Nat → List Nat → Except InfocomError (List Char)
  | _, [] => .ok []
  | a, c :: rest =>
    if c = 0 then do
      let s ← decodeV3_go_ab map 0 rest
      .ok (' ' :: s)
    else if c = 1 ∨ c = 2 ∨ c = 3 then
      match rest with
      | ab :: rest2 => do
        let s1 ← decodeV3_noab map (abbreviation_address map c ab)
        let s2 ← decodeV3_go_ab map 0 rest2
        .ok (s1 ++ s2)
      | [] => .error (.text "Text ended on an incomplete abbreviation")
    else if c = 4 then decodeV3_go_ab map 1 rest
    else if c = 5 then decodeV3_go_ab map 2 rest
    else if c = 6 then
      if a = 2 then
        match rest with
        | b1 :: b2 :: rest2 => do
          let s ← decodeV3_go_ab map 0 rest2
          .ok (decode_zscii b1 b2 :: s)
        | _ => .error (.text "Text ended on an incomplete ZSCII character")
      else do
        let s ← decodeV3_go_ab map 0 rest
        .ok (alphaV3 a (c - 6) :: s)
    else if c = 7 then
      if a = 2 then do
        let s ← decodeV3_go_ab map 0 rest
        .ok ('\n' :: s)
      else do
        let s ← decodeV3_go_ab map 0 rest
        .ok (alphaV3 a (c - 6) :: s)
    else do
      let s ← decodeV3_go_ab map 0 rest
      .ok (alphaV3 a (c - 6) :: s)

/-- String decoding with abbreviations, DecoderV3::decode as the Decoder
dispatch calls it for a V3 image. -/
def decodeV3 (map : List Nat) (address : Nat) : Except InfocomError (List Char) :=
  match read_zbytes_from map address with
  | some data => decodeV3_go_ab map 0 data
  | none => .error (.rustAbort "read past the end of the image")

/-- Memory holding the two Z-words 0x14C3 and 0x8485, which encode the
Z-char stream 5, 6, 3, 1, 4, 5: shift to A2, ZSCII escape with b1 = 3 and
b2 = 1, then two trailing shifts. -/
def zc6Mem : List Nat := [0x14, 0xC3, 0x84, 0x85]

/-- Claim C6: the Z-character 6 escape in A2 does consume the next two
Z-chars, but decode_zscii masks the shifted first Z-char with 0x3E instead
of 0x3E0, so the assembled code keeps only bit 0 of b1: for b1 = 3, b2 = 1
the code is 33 and the decoder emits the exclamation mark, while the 10-bit
code of the claim is 32 * 3 + 1 = 97, the letter a.  The computed code can
never exceed 63, so the 155..222 table arm of decode_zscii itself is dead
code - clear evidence that the mask is a slip. -/
theorem zscii_escape_mask_bug :
    decode_zscii 3 1 = '!' ∧
    (∀ b1 < 32, ∀ b2 < 32, ((b1 <<< 5) &&& 0x3E) ||| (b2 &&& 0x1F) < 64) ∧
    decodeV3 zc6Mem 0 = .ok ['!'] ∧
    32 * 3 + 1 = 97 ∧ Char.ofNat 97 = 'a' ∧ ('!' : Char) ≠ 'a' := by
  exact ⟨by decide, by decide, by decide, by decide, by decide, by decide⟩

/-- Lexeme, from struct Word in src/components/dictionary.rs (text slice and
its 0-based position in the input; the inputs reaching it are ASCII, so the
byte offsets of the Rust code coincide with character positions). -/
structure Word where
  text : List Char
  position : Nat
deriving DecidableEq, Repr

/-- String::len of a piece of text: Rust strings measure UTF-8 bytes. -/
def utf8_len (text : List Char) : Nat := text.foldl (fun n c => n + c.utf8Size) 0

/-- str::find of Dictionary::analyze_text: the byte offset of the first
character satisfying the predicate (find walks characters but reports the
byte position where the hit starts). -/
def byte_find (p : Char → Bool) : List Char → Option Nat
  | [] => none
  | c :: rest =>
    if p c then some 0 else (byte_find p rest).map (fun j => c.utf8Size + j)

/-- The slice &s[0..n] for a byte count n: the characters covered by the
first n bytes.  analyze_text only slices at offsets returned by find, which
are character boundaries, where this is exact. -/
def take_bytes : Nat → List Char → List Char
  | _, [] => []
  | n, c :: rest => if c.utf8Size ≤ n then c :: take_bytes (n - c.utf8Size) rest else []

/-- Worker of the tokenization loop of Dictionary::analyze_text in
src/components/dictionary.rs, with an explicit fuel so the recursion is
structural: each pass consumes at least one byte of the slice, so the fuel
supplied by tokenize (byte length + 1) never runs out.  The loop finds the
byte offset i of the first space or separator; when i > 0 the prefix
&slice[0..i] is emitted, and then slice.chars()[i] - the character vector
indexed by the byte offset - is tested for separator-hood: past the end of
the vector that indexing panics, and on a hit the emitted separator lexeme
is the one-byte slice &slice[i..i+1], which panics when the found character
is wider than one byte.  The loop then continues on &slice[i+1..], another
panic when byte i + 1 is not a character boundary.  With no hit the
non-empty remainder is emitted.  Panics are modelled as rustAbort errors. -/
def tokenize_go (separators : List Char) :
    Nat → List Char → Nat → Except InfocomError (List Word)
  | 0, _, _ => .ok []
  | fuel + 1, slice, offset =>
    match byte_find (fun c => c == ' ' || separators.contains c) slice with
    | some i =>
      match slice.drop (take_bytes i slice).length with
      | [] => .error (.rustAbort "index out of bounds")
      | cfound :: after => do
        let emitted ←
          if 0 < i then
            match slice[i]? with
            | none => .error (.rustAbort "index out of bounds")
            | some ci =>
              if separators.contains ci then
                if cfound.utf8Size = 1 then
                  .ok [{ text := take_bytes i slice, position := offset },
                       { text := [cfound], position := offset + i }]
                else .error (.rustAbort "byte index is not a char boundary")
              else .ok [{ text := take_bytes i slice, position := offset }]
          else .ok ([] : List Word)
        let rest ←
          if cfound.utf8Size = 1 then .ok after
          else .error (.rustAbort "byte index is not a char boundary")
        let more ← tokenize_go separators fuel rest (offset + i + 1)
        .ok (emitted ++ more)
    | none =>
      if 0 < utf8_len slice then .ok [{ text := slice, position := offset }]
      else .ok ([] : List Word)

/-- Tokenization of Dictionary::analyze_text: the loop over the input slice,
starting at byte offset 0. -/
def tokenize (separators : List Char) (text : List Char) :
    Except InfocomError (List Word) :=
  tokenize_go separators (utf8_len text + 1) text 0

/-- Modelled from the claim text of C4 (the spec sentence on partitioning):
scan the input left to right accumulating the current lexeme; a space or
separator ends the lexeme, which is emitted if non-empty; every separator is
emitted as its own one-character lexeme at its original offset; spaces are
discarded; the final lexeme is emitted if non-empty. -/
def spec_scan (separators : List Char) : List Char → List Char → Nat → Nat → List Word
  | [], acc, start, _ =>
    if 0 < acc.length then [{ text := acc, position := start }] else []
  | c :: rest, acc, start, pos =>
    if c == ' ' || separators.contains c then
      (if 0 < acc.length then [{ text := acc, position := start }] else []) ++
      (if separators.contains c then [{ text := [c], position := pos }] else []) ++
      spec_scan separators rest [] (pos + 1) (pos + 1)
    else
      spec_scan separators rest (acc ++ [c]) (if 0 < acc.length then start else pos)
        (pos + 1)

/-- Lexeme partition exactly as claim C4 states it. -/
def spec_lexemes (separators : List Char) (text : List Char) : List Word :=
  spec_scan separators text [] 0 0

/-- Claim C4: refuted.  With separator set {','}: the leading comma of ",x"
is dropped entirely (the `if i > 0` guard wraps the separator emission as
well), where the claim emits it as its own lexeme; and the byte offset
str::find returns is used to index the character vector and to slice, so
after a multi-byte character the separator test examines the wrong
character - "üb,x" loses the comma that terminated the non-empty lexeme
"üb" - or runs off the end of the vector and panics, as "aüb," does. -/
theorem tokenize_byte_index_divergence :
    tokenize [','] [',', 'x'] = .ok [{ text := ['x'], position := 1 }] ∧
    spec_lexemes [','] [',', 'x'] =
      [{ text := [','], position := 0 }, { text := ['x'], position := 1 }] ∧
    tokenize [','] ['ü', 'b', ',', 'x'] =
      .ok [{ text := ['ü', 'b'], position := 0 }, { text := ['x'], position := 4 }] ∧
    spec_lexemes [','] ['ü', 'b', ',', 'x'] =
      [{ text := ['ü', 'b'], position := 0 }, { text := [','], position := 2 },
       { text := ['x'], position := 3 }] ∧
    tokenize [','] ['a', 'ü', 'b', ','] = .error (.rustAbort "index out of bounds") := by
  refine ⟨by decide, by decide, by decide, by decide, by decide⟩

/-- Character to Z-char mapping, from Encoder::map_char in
src/components/text.rs, for the V3 alphabet: search the three alphabet rows
(returning row index and slot + 6), then the ZSCII table (returning the
split 10-bit code, with bit 7 of the first component marking the escape). -/
def map_char (c : Char) : Option (Nat × Nat) :=
  match (List.range 3).findSome? (fun i =>
      match (alphabetV3.getD i []).findIdx? (fun x => x == c) with
      | some j => some (i, j + 6)
      | none => none) with
  | some r => some r
  | none =>
    match zsciiTable.findIdx? (fun x => x == c) with
    | some i => some ((((155 + i) >>> 5) &&& 0x1F) ||| 0x80, (155 + i) &&& 0x1F)
    | none => none

/-- Z-char emission loop, from Encoder::to_zchars in src/components/text.rs:
characters are consumed while fewer than length Z-chars have been emitted;
unmappable characters are skipped; ZSCII escapes emit 5, 6 and the split
code; the shift-lock branches are transcribed in full although the V3
encoder always passes shift_lock = false, so shift_locked stays false. -/
def to_zchars_go (length : Nat) (shift_lock : Bool) :
    Bool → List Char → List Nat → List Nat
  | _, [], result => result
  | shift_locked, c :: rest, result =>
    if result.length ≥ length then result
    else
      match map_char c with
      | none => to_zchars_go length shift_lock shift_locked rest result
      | some (a, i) =>
        if a &&& 0x80 = 0x80 then
          to_zchars_go length shift_lock shift_locked rest
            (result ++ [5, 6, a &&& 0x1F, i])
        else if shift_locked ∧ a ≠ 2 then
          to_zchars_go length shift_lock false rest (result ++ [i, 4] ++ [i])
        else if a = 2 then
          if ¬ shift_lock then
            to_zchars_go length shift_lock shift_locked rest (result ++ [5] ++ [i])
          else if ¬ shift_locked then
            match rest.head? with
            | some n_c =>
              match map_char n_c with
              | some (n_a, _) =>
                if n_a = 2 then
                  to_zchars_go length shift_lock true rest (result ++ [5] ++ [i])
                else
                  to_zchars_go length shift_lock shift_locked rest (result ++ [i])
              | none =>
                to_zchars_go length shift_lock shift_locked rest (result ++ [3] ++ [i])
            | none =>
              to_zchars_go length shift_lock shift_locked rest (result ++ [3] ++ [i])
          else to_zchars_go length shift_lock shift_locked rest (result ++ [i])
        else to_zchars_go length shift_lock shift_locked rest (result ++ [i])

/-- Z-char stream of a string, from Encoder::to_zchars: the emitted stream
padded with 5 (the pad Z-char) and truncated to exactly length entries. -/
def to_zchars (text : List Char) (length : Nat) (shift_lock : Bool) : List Nat :=
  ((to_zchars_go length shift_lock false text []) ++ List.replicate length 5).take length

/-- Indices visited by the packing loop of Encoder::encode_text
(for i in (0..length).step_by(3)). -/
def stepBy3 (length : Nat) : List Nat :=
  (List.range length).filter (fun i => i % 3 == 0)

/-- Word packing, from Encoder::encode_text in src/components/text.rs: three
Z-chars per big-endian word; the high bit of the last word is set.  The two
rustAbort branches model the unwrap calls of the source (unreachable for the
lengths 6 and 9 it is called with). -/
def encode_text (text : List Char) (length : Nat) (shift_lock : Bool) :
    Except InfocomError (List Nat) := do
  let zchars := to_zchars text length shift_lock
  let result ← (stepBy3 length).mapM (fun i =>
    match zchars.get? i, zchars.get? (i + 1), zchars.get? (i + 2) with
    | some zc1, some zc2, some zc3 =>
      let zb1 := ((zc1 <<< 2) &&& 0x7C) ||| ((zc2 >>> 3) &&& 0x03)
      let zb2 := ((zc2 <<< 5) &&& 0xE0) ||| zc3
      (.ok (((zb1 <<< 8) &&& 0xFF00) ||| (zb2 &&& 0xFF)) : Except InfocomError Nat)
    | _, _, _ => .error (.rustAbort "unwrap of a missing Z-char"))
  match result with
  | [] => .error (.rustAbort "pop from an empty result vector")
  | _ => .ok (result.dropLast ++ [result.getLastD 0 ||| 0x8000])

/-- Dictionary-key encoding, from Encoder::encode: lowercase the text (the
inputs here are ASCII, where Char.toLower agrees with Rust to_lowercase),
then pack 6 Z-chars for V1 to V3 (shift-locking in V1 and V2 only) or 9 for
V4+. -/
def Encoder.encode (version : Nat) (text : List Char) : Except InfocomError (List Nat) :=
  let s := text.map Char.toLower
  if version = 1 ∨ version = 2 then encode_text s 6 true
  else if version = 3 then encode_text s 6 false
  else encode_text s 9 false

/-- Dictionary header data, from struct Dictionary in
src/components/dictionary.rs.  The encoder field is omitted (the encode
functions above are used directly); the separators HashSet is modelled as a
list in insertion order, of which only membership is used. -/
structure Dictionary where
  address : Nat
  separators : List Char
  entry_length : Nat
  entry_count : Nat
  entries_address : Nat
deriving DecidableEq, Repr

/-- Linear scan of Dictionary::lookup_word: compare the packed key against
the first four bytes of each entry; a hit returns the entry address as u16. -/
def lookup_scan (mm : MemoryMap) (entries_address entry_length entry : Nat) :
    Nat → Nat → Except InfocomError (Option Nat)
  | 0, _ => .ok none
  | remaining + 1, i => do
    let entry_address := entries_address + i * entry_length
    let w1 ← mm.get_word entry_address
    let w2 ← mm.get_word (entry_address + 2)
    if entry = (w1 <<< 16) ||| w2 then .ok (some (entry_address % 65536))
    else lookup_scan mm entries_address entry_length entry remaining (i + 1)

/-- Dictionary lookup, from Dictionary::lookup_word: encode the word and
scan the entry_count entries. -/
def lookup_word (dict : Dictionary) (version : Nat) (mm : MemoryMap)
    (word : List Char) : Except InfocomError (Option Nat) := do
  let encoded ← Encoder.encode version word
  match encoded.get? 0, encoded.get? 1 with
  | some e0, some e1 =>
    lookup_scan mm dict.entries_address dict.entry_length ((e0 <<< 16) ||| e1)
      dict.entry_count 0
  | _, _ => .error (.rustAbort "encoded text shorter than two words")

/-- Parse-record writing loop of Dictionary::analyze_text: for lexeme i, at
parse table + 2 + 4i, a word holding the entry address (or 0), a byte of
lexeme length - text.len(), the UTF-8 byte length, as u8 - and a byte of
position + 2 (u8 arithmetic: the wrapping sum equals (position + 2) mod
256).  FrameStack::set_byte and
set_word delegate directly to the memory map, so the loop is modelled over
MemoryMap. -/
def analyze_write_loop (dict : Dictionary) (version : Nat) :
    MemoryMap → List Word → Nat → Nat → Except InfocomError MemoryMap
  | mm, [], _, _ => .ok mm
  | mm, w :: rest, pt, i => do
    let addr := pt + 2 + 4 * i
    let lw ← lookup_word dict version mm w.text
    let mm1 ← match lw with
      | some entry_address => mm.set_wordE addr entry_address
      | none => mm.set_wordE addr 0
    let mm2 ← mm1.set_byte (addr + 2) (utf8_len w.text % 256)
    let mm3 ← mm2.set_byte (addr + 3) ((w.position % 256 + 2) % 256)
    analyze_write_loop dict version mm3 rest pt (i + 1)

/-- Tokenize-and-write, from Dictionary::analyze_text: partition the input,
store the lexeme count (as u8) at parse table byte 1, then write one record
per lexeme. -/
def Dictionary.analyze_text (dict : Dictionary) (version : Nat) (mm : MemoryMap)
    (text : List Char) (parse_table_address : Nat) : Except InfocomError MemoryMap := do
  let words ← tokenize dict.separators text
  let mm1 ← mm.set_byte (parse_table_address + 1) (words.length % 256)
  analyze_write_loop dict version mm1 words parse_table_address 0

/-! ### Claim C5: sread (V1-4) -/

/-- ZSCII code to character, from Decoder::zscii_to_char: codes above 1023
are errors; 0 is NUL, 13 is newline, 32-126 is ASCII, 155 onward indexes the
extra-character table, anything else prints as commercial-at. -/
def zscii_to_char (z : Nat) : Except InfocomError Char :=
  if z > 1023 then .error (.text "Invalid character code")
  else if z = 0 then .ok (Char.ofNat 0)
  else if z = 13 then .ok (Char.ofNat 10)
  else if 32 ≤ z ∧ z ≤ 126 then .ok (Char.ofNat z)
  else if 155 ≤ z ∧ z < 155 + zsciiTable.length then .ok (zsciiTable.getD (z - 155) ' ')
  else .ok '@'

/-- Word-separator loop of Dictionary::new: read separator_count ZSCII bytes
following the count byte.  The source inserts them into a HashSet; the model
keeps them as a list in read order, which tokenize only queries through
contains. -/
def sep_loop (mm : MemoryMap) (address : Nat) :
    Nat → Nat → Except InfocomError (List Char)
  | 0, _ => .ok []
  | n + 1, i => do
    let b ← mm.get_byte (address + 1 + i)
    let c ← zscii_to_char b
    let rest ← sep_loop mm address n (i + 1)
    .ok (c :: rest)

/-- Dictionary header parsing, from Dictionary::new: the dictionary sits at
the address in header word 0x08; after the separator count and separators
come a byte of entry_length, a word of entry_count, and the entries.  The
decoder and encoder the source builds here are modelled by zscii_to_char and
the version-indexed Encoder.encode. -/
def Dictionary.new (mm : MemoryMap) : Except InfocomError Dictionary := do
  let address ← mm.get_word 0x08
  let separator_count ← mm.get_byte address
  let separators ← sep_loop mm address separator_count 0
  let entry_length ← mm.get_byte (address + 1 + separator_count)
  let entry_count ← mm.get_word (address + 2 + separator_count)
  .ok { address := address, separators := separators, entry_length := entry_length,
        entry_count := entry_count, entries_address := address + 4 + separator_count }

/-- Text to ZSCII bytes, from Encoder::to_bytes: a character whose 16-bit
code is strictly between 31 and 127 passes through as its byte; any other
character contributes 155 + index for every extra-character table entry
equal to it (so an unmapped character is silently dropped).  No lowercasing
happens here. -/
def Encoder.to_bytes (text : List Char) : List Nat :=
  text.foldl (fun result c =>
    if 31 < c.toNat % 65536 ∧ c.toNat % 65536 < 127 then result ++ [c.toNat % 256]
    else result ++ ((List.range zsciiTable.length).filterMap (fun i =>
      if zsciiTable[i]? = some c then some ((155 + i) % 256) else none))) []

/-- The byte-store loop of Instruction::sread_v1: input_bytes[i] goes to
text_buffer + i + 2.  FrameStack::set_byte delegates to the memory map. -/
def write_bytes : MemoryMap → Nat → Nat → List Nat → Except InfocomError MemoryMap
  | mm, _, _, [] => .ok mm
  | mm, tb, i, c :: rest => do
    let mm1 ← mm.set_byte (tb + i + 2) c
    write_bytes mm1 tb (i + 1) rest


/-- Core of Instruction::sread_v1.  The status-line display, the operand
fetch and the curses interface sit outside the model: text_buffer and
parse_buffer arrive as the two decoded operands, and rawInput stands for the
line interface.read returned, terminating character included (read itself
keeps the typed text below the max_chars capacity taken from
text_buffer[0] - 1; that subtraction only feeds the elided read, so it is
Nat subtraction here).  The terminator is popped, the remaining text is
turned into ZSCII bytes - not lowercased - plus a 0 terminator, the
character count is stored at text_buffer + 1 and the bytes from
text_buffer + 2 on, then the text is tokenized into the parse buffer via
Dictionary::analyze_text. -/
def sread_v1_core (mm : MemoryMap) (text_buffer parse_buffer : Nat)
    (rawInput : List Char) : Except InfocomError MemoryMap := do
  let cap ← mm.get_byte text_buffer
  let _max_chars := cap - 1
  let input := rawInput.dropLast
  let input_bytes := Encoder.to_bytes input ++ [0]
  let mm1 ← mm.set_byte (text_buffer + 1) (utf8_len input % 256)
  let mm2 ← write_bytes mm1 text_buffer 0 input_bytes
  let _max_words ← mm2.get_byte parse_buffer
  let dict ← Dictionary.new mm2
  Dictionary.analyze_text dict mm2.version mm2 input parse_buffer

/-- A small V3 image for exercising sread_v1: dictionary at 0x40 (no
separators, entry length 7, no entries), text buffer at 0x20 with capacity
byte 0x10, parse buffer at 0x30 with capacity 5 words, static mark 0x50 so
the whole 80-byte image is writable. -/
def sreadData : List Nat :=
  [3, 0, 0, 0, 0, 0, 0, 0, 0, 0x40, 0, 0, 0, 0, 0, 0x50] ++
  List.replicate 16 0 ++
  (0x10 :: List.replicate 15 0) ++
  (0x05 :: List.replicate 15 0) ++
  (0 :: 0x07 :: List.replicate 14 0)

/-- Memory map of sreadData (the MemoryMap.try_from result on it). -/
def sreadImage : MemoryMap :=
  { version := 3, memory_map := sreadData, dynamic_restore := sreadData,
    static_mark := 0x50 }

/-- Modelled from the claim text of C5: the V1-4 text-buffer layout the
claim describes - from text_buffer + 1 on, the typed text lowercased, as
bytes, with a 0 terminator and no count byte. -/
def spec_v1_buffer (input : List Char) : List Nat :=
  input.map (fun c => c.toLower.toNat % 256) ++ [0]

/-- Claim C5: refuted on the stored layout.  Typing "AB" (line "AB" plus
newline) into sread with text buffer 0x20 leaves byte 0x21 holding the
character count 2 and bytes 0x22-0x24 holding the raw text 0x41 0x42 0x00:
the count-then-text layout of V5, not the claimed V1-4 layout, and the text
is not lowercased.  The claim's layout would put 0x61 0x62 0x00 at
0x21-0x23. -/
theorem sread_buffer_divergence :
    ((sread_v1_core sreadImage 0x20 0x30 ['A', 'B', '\n']).map
        (fun m => [m.get_byte 0x21, m.get_byte 0x22, m.get_byte 0x23, m.get_byte 0x24]))
      = .ok [.ok 2, .ok 0x41, .ok 0x42, .ok 0] ∧
    spec_v1_buffer ['A', 'B'] = [0x61, 0x62, 0] ∧
    [(2 : Nat), 0x41, 0x42] ≠ spec_v1_buffer ['A', 'B'] := by
  refine ⟨by decide, by decide, by decide⟩
